import Mathlib

/-!
Verification of the Speech-Emotion-Recognition front-end logic.

The development shallowly embeds the logic of the repository's components:

* `AudioUpload` (`validateFile`, `handleFile`): format / size / duration
  validation of an uploaded audio file;
* `App` (`handleAnalyze`, the `mockResult` construction and the history
  update): the mock emotion-classification result and the capped history;
* `AudioRecorder` (`startRecording`, `stopRecording`, the once-per-second
  timer): the microphone capture session as an explicit state machine, with
  React's closure capture of the `isRecording` state variable made explicit.

Decoded durations and confidence percentages are modelled as rationals
(the JavaScript comparisons against the exactly representable constants
300, 0.5, 65, 95 and 100 agree with the rational comparisons), byte sizes
as naturals, and the browser's random draws as parameters constrained to
the interval `[0, 1)` that `Math.random()` guarantees.
-/

namespace SER

/-! ### AudioUpload: file validation (src/components/AudioUpload.tsx) -/

/-- A file as handed to `validateFile`: name, declared media type, byte size. -/
structure AudioFile where
  name : String
  mediaType : String
  size : ℕ
deriving DecidableEq, Repr

/-- `ACCEPTED_FORMATS` constant of `AudioUpload`. -/
def ACCEPTED_FORMATS : List String :=
  ["audio/wav", "audio/mpeg", "audio/mp3", "audio/flac", "audio/x-flac"]

/-- `MAX_FILE_SIZE` constant of `AudioUpload`: 50 MiB. -/
def MAX_FILE_SIZE : ℕ := 50 * 1024 * 1024

/-- `MAX_DURATION` constant of `AudioUpload`: 300 seconds. -/
def MAX_DURATION : ℚ := 300

/-- Minimum duration used by `validateFile`: 0.5 seconds (as the reduced
rational one half). -/
def MIN_DURATION : ℚ := mkRat 1 2

/-- The regex test `file.name.match(/\.(wav|mp3|flac)$/i)`: the lower-cased
name ends in `.wav`, `.mp3` or `.flac` (checked on the character list). -/
def extensionMatches (name : String) : Bool :=
  let l := name.data.map Char.toLower
  ".wav".data.isSuffixOf l || ".mp3".data.isSuffixOf l || ".flac".data.isSuffixOf l

/-- Outcome of the external decode step (`loadedmetadata` vs `error`). -/
inductive DecodeResult where
  | failed : DecodeResult
  | ok (duration : ℚ) : DecodeResult
deriving DecidableEq, Repr

/-- The validation error taxonomy surfaced by `setError` in `validateFile`. -/
inductive ValidationError where
  | UnsupportedFormat : ValidationError
  | FileTooLarge : ValidationError
  | DecodeFailed : ValidationError
  | TooLong : ValidationError
  | TooShort : ValidationError
deriving DecidableEq, Repr

/-- The audio artifact produced by a successful validation. -/
structure AudioArtifact where
  displayName : String
  mediaType : String
  sizeBytes : ℕ
  durationSeconds : ℚ
deriving DecidableEq, Repr

/-- Tagged validation result. -/
inductive ValidationOutcome where
  | Accepted (artifact : AudioArtifact) : ValidationOutcome
  | Rejected (reason : ValidationError) : ValidationOutcome
deriving DecidableEq, Repr

/-- `validateFile` of `AudioUpload.tsx`, with the asynchronous decode step
passed in as `decode`.  The checks run in source order: format first, then
size, then the decoded duration. -/
def validateFile (f : AudioFile) (decode : DecodeResult) : ValidationOutcome :=
  if !(ACCEPTED_FORMATS.contains f.mediaType || extensionMatches f.name) then
    .Rejected .UnsupportedFormat
  else if f.size > MAX_FILE_SIZE then
    .Rejected .FileTooLarge
  else
    match decode with
    | .failed => .Rejected .DecodeFailed
    | .ok d =>
      if d > MAX_DURATION then .Rejected .TooLong
      else if d < MIN_DURATION then .Rejected .TooShort
      else .Accepted ⟨f.name, f.mediaType, f.size, d⟩

/-- `handleFile` of `AudioUpload.tsx`: on success the caller is notified with
the artifact (`onAudioSelected`), on rejection no artifact is produced and
only the error is surfaced. -/
def handleFile (f : AudioFile) (decode : DecodeResult) :
    Option AudioArtifact × Option ValidationError :=
  match validateFile f decode with
  | .Accepted a => (some a, none)
  | .Rejected e => (none, some e)

/-! ### App: mock classification (handleAnalyze, src/App.tsx) -/

/-- The fixed emotion vocabulary, in declaration order (`emotions` array of
`handleAnalyze`). -/
def emotions : List String :=
  ["happy", "sad", "angry", "fearful", "neutral", "surprised", "disgusted"]

/-- One `(emotion, confidence)` entry of the result. -/
structure EmotionEntry where
  emotion : String
  confidence : ℚ
deriving DecidableEq, Repr

/-- `EmotionResult` interface of `App.tsx`. -/
structure EmotionResult where
  primary : EmotionEntry
  all : List EmotionEntry
deriving DecidableEq, Repr

/-- `emotions[Math.floor(Math.random() * emotions.length)]`, the random
index `k` made explicit (always `< 7` in the source). -/
def primaryEmotion (k : ℕ) : String := emotions.getD k "neutral"

/-- `65 + Math.random() * 30`, the random draw `r0 ∈ [0, 1)` made explicit. -/
def primaryConfidence (r0 : ℚ) : ℚ := 65 + r0 * 30

/-- The JavaScript comparator `(a, b) => b.confidence - a.confidence`:
`a` sorts before (or with) `b` when `b.confidence ≤ a.confidence`. -/
def descBy (a b : EmotionEntry) : Bool := decide (b.confidence ≤ a.confidence)

/-- `otherEmotions` of `handleAnalyze`: the six non-primary labels, each with
confidence `(rs e) * (100 - primaryConfidence)` for a per-label random draw
`rs e ∈ [0, 1)`, sorted by descending confidence. -/
def otherEmotions (k : ℕ) (r0 : ℚ) (rs : String → ℚ) : List EmotionEntry :=
  ((emotions.filter (fun e => e != primaryEmotion k)).map
    (fun e => ⟨e, rs e * (100 - primaryConfidence r0)⟩)).mergeSort descBy

/-- `mockResult` of `handleAnalyze`: the primary entry together with the six
others, the whole list sorted again by descending confidence. -/
def mockResult (k : ℕ) (r0 : ℚ) (rs : String → ℚ) : EmotionResult :=
  { primary := ⟨primaryEmotion k, primaryConfidence r0⟩
    all := ((⟨primaryEmotion k, primaryConfidence r0⟩ : EmotionEntry)
      :: otherEmotions k r0 rs).mergeSort descBy }

/-! ### App: history ledger (setHistory update of handleAnalyze) -/

/-- `EmotionPrediction` interface of `App.tsx` (timestamps as naturals). -/
structure EmotionPrediction where
  emotion : String
  confidence : ℚ
  timestamp : ℕ
  audioName : String
deriving DecidableEq, Repr

/-- The `setHistory` updater `prev => [entry, ...prev.slice(0, 9)]`. -/
def record (e : EmotionPrediction) (prev : List EmotionPrediction) :
    List EmotionPrediction :=
  e :: prev.take 9

/-- Sequential insertion of a batch of entries into an initially empty
history, oldest first. -/
def insertAll (es : List EmotionPrediction) : List EmotionPrediction :=
  es.foldl (fun h e => record e h) []

/-! ### App: view-orchestrator state (src/App.tsx)

`handleAnalyze` is an `async` function: it captures `audioFile` from the
render in which it was invoked, suspends for the artificial delay, and only
then writes `result` and `history`.  The suspended continuation is modelled
as the `pendingAnalysis` field holding the captured file. -/

/-- The orchestrator state of `App`, with the suspended `handleAnalyze`
continuation made explicit. -/
structure AppState where
  audioFile : Option AudioFile
  audioUrl : Option ℕ
  isAnalyzing : Bool
  result : Option EmotionResult
  history : List EmotionPrediction
  pendingAnalysis : Option AudioFile
  classifyCalls : ℕ
deriving DecidableEq, Repr

/-- `handleAudioSelected` of `App.tsx`: store the new file and url, clear the
result.  The pending analysis, if any, is left untouched. -/
def handleAudioSelected (f : AudioFile) (url : ℕ) (s : AppState) : AppState :=
  { s with audioFile := some f, audioUrl := some url, result := none }

/-- The upload path end to end: `handleFile` runs `validateFile` and calls
`handleAudioSelected` only on acceptance; a rejection leaves the orchestrator
state untouched. -/
def processFileSelection (f : AudioFile) (decode : DecodeResult) (url : ℕ)
    (s : AppState) : AppState :=
  match validateFile f decode with
  | .Accepted _ => handleAudioSelected f url s
  | .Rejected _ => s

/-- First half of `handleAnalyze`, up to the `await`: guard on a selected
file, set `isAnalyzing`, clear `result`, and suspend with the captured file. -/
def handleAnalyzeStart (s : AppState) : AppState :=
  match s.audioFile with
  | none => s
  | some f =>
    { s with
      isAnalyzing := true
      result := none
      pendingAnalysis := some f
      classifyCalls := s.classifyCalls + 1 }

/-- Second half of `handleAnalyze`, after the delay resolves: build
`mockResult` from the random draws, store it, and prepend the history entry
named after the captured (possibly superseded) file.  There is no check that
the captured file still equals `s.audioFile`. -/
def handleAnalyzeResolve (k : ℕ) (r0 : ℚ) (rs : String → ℚ) (t : ℕ)
    (s : AppState) : AppState :=
  match s.pendingAnalysis with
  | none => s
  | some f =>
    let res := mockResult k r0 rs
    { s with
      result := some res
      isAnalyzing := false
      history := record ⟨res.primary.emotion, res.primary.confidence, t, f.name⟩
        s.history
      pendingAnalysis := none }

/-! ### AudioRecorder: capture session (src/components/AudioRecorder.tsx)

The component is modelled as an explicit state machine.  React closures make
one detail essential: `stopRecording` reads the `isRecording` *state
variable captured by the render in which the closure was created*, while
`mediaRecorderRef` is a ref and always yields the current value.  The
captured value is therefore an explicit argument of `stopRecording`.

The interval callback installed by `startRecording` closes over the
`stopRecording` of the render that invoked `startRecording`; the
`isRecording` value that closure captured is stored in
`timerCapturedIsRecording`.  Stream acquisitions are counted:
`openStreams` counts acquired-but-not-released exclusive capture streams. -/

/-- `MAX_RECORDING_TIME` constant of `AudioRecorder`: 300 seconds. -/
def MAX_RECORDING_TIME : ℕ := 300

/-- State of the `AudioRecorder` component plus its owned platform
resources. -/
structure RecState where
  isRecording : Bool
  recordingTime : ℕ
  hasBlob : Bool
  errorSet : Bool
  mediaRecorderExists : Bool
  recorderRecording : Bool
  timerActive : Bool
  timerCapturedIsRecording : Bool
  openStreams : ℕ
  acquiredStreams : ℕ
  artifactsEmitted : ℕ
deriving DecidableEq, Repr

/-- The component's state after mounting with permission granted: idle, no
recorder, no timer, no streams held. -/
def initRec : RecState :=
  { isRecording := false, recordingTime := 0, hasBlob := false
    errorSet := false, mediaRecorderExists := false, recorderRecording := false
    timerActive := false, timerCapturedIsRecording := false
    openStreams := 0, acquiredStreams := 0, artifactsEmitted := 0 }

/-- `startRecording` of `AudioRecorder.tsx`.  `granted` is the outcome of
`getUserMedia`; `v` is the value of the `isRecording` state variable in the
render whose `startRecording` (and hence whose `stopRecording` closure) the
new interval captures.  On success a fresh exclusive stream is acquired and
`streamRef`/`timerRef` are overwritten — a previously held stream or timer is
not released first.  On failure only the error message is set. -/
def startRecording (granted : Bool) (v : Bool) (s : RecState) : RecState :=
  if granted then
    { s with
      errorSet := false
      hasBlob := false
      acquiredStreams := s.acquiredStreams + 1
      openStreams := s.openStreams + 1
      mediaRecorderExists := true
      recorderRecording := true
      isRecording := true
      recordingTime := 0
      timerActive := true
      timerCapturedIsRecording := v }
  else
    { s with errorSet := true, hasBlob := false }

/-- `stopRecording` of `AudioRecorder.tsx`, with the closure-captured
`isRecording` value passed as `captured`.  When the guard
`mediaRecorderRef.current && isRecording` holds, `mediaRecorder.stop()`
fires `onstop` (blob built, artifact emitted via `onAudioRecorded`, the
current stream's tracks stopped) and the interval is cleared. -/
def stopRecording (captured : Bool) (s : RecState) : RecState :=
  if s.mediaRecorderExists && captured then
    { s with
      recorderRecording := false
      isRecording := false
      hasBlob := true
      artifactsEmitted := s.artifactsEmitted + 1
      openStreams := s.openStreams - 1
      timerActive := false }
  else s

/-- A click on the Stop button: the handler comes from the current render,
so its captured `isRecording` is the current state value. -/
def userStop (s : RecState) : RecState := stopRecording s.isRecording s

/-- One firing of the interval installed by `startRecording`: the updater
`prev => prev >= MAX ? (stopRecording(), prev) : prev + 1`, where the
`stopRecording` invoked is the stale closure whose captured `isRecording` is
`timerCapturedIsRecording`. -/
def timerTick (s : RecState) : RecState :=
  if !s.timerActive then s
  else if s.recordingTime ≥ MAX_RECORDING_TIME then
    stopRecording s.timerCapturedIsRecording s
  else { s with recordingTime := s.recordingTime + 1 }

/-- `n` consecutive timer firings. -/
def recTicks : ℕ → RecState → RecState
  | 0, s => s
  | n + 1, s => recTicks n (timerTick s)

/-- The orchestrator state on mount: nothing selected, nothing pending. -/
def initApp : AppState :=
  { audioFile := none, audioUrl := none, isAnalyzing := false
    result := none, history := [], pendingAnalysis := none, classifyCalls := 0 }

/-- A concrete batch of eleven pairwise distinct history entries. -/
def sampleBatch : List EmotionPrediction :=
  (List.range 11).map (fun (i : ℕ) =>
    { emotion := "happy", confidence := (i : ℚ), timestamp := i
      audioName := "clip" })

/-! ## Theorems -/

/-- The minimum-duration constant is one half of a second. -/
theorem MIN_DURATION_eq_half : MIN_DURATION = 1 / 2 := by
  norm_num [MIN_DURATION, mkRat, Rat.normalize]

/-- Truncating the tail of a capped history commutes with the overall cap:
with at least one element in front, only the first nine tail entries can
survive a `take 10`. -/
theorem take_ten_of_take_nine {α : Type} (L M : List α) (hL : 1 ≤ L.length) :
    (L ++ M.take 9).take 10 = (L ++ M).take 10 := by
  rw [List.take_append_eq_append_take, List.take_append_eq_append_take,
    List.take_take]
  have hmin : (10 - L.length) ⊓ 9 = 10 - L.length := by omega
  rw [hmin]

/-- Folding the `setHistory` updater over a batch, starting from a history of
at most ten entries, keeps the ten newest entries, newest first. -/
theorem foldl_record_eq (es : List EmotionPrediction) :
    ∀ h : List EmotionPrediction, h.length ≤ 10 →
      es.foldl (fun acc e => record e acc) h = (es.reverse ++ h).take 10 := by
  induction es with
  | nil =>
    intro h hl
    simp [List.take_of_length_le hl]
  | cons e es ih =>
    intro h hl
    rw [List.foldl_cons]
    have hrec : (record e h).length ≤ 10 := by
      simp only [record, List.length_cons, List.length_take]
      omega
    rw [ih (record e h) hrec, List.reverse_cons]
    show (es.reverse ++ (e :: h.take 9)).take 10 = _
    rw [List.append_cons es.reverse e (h.take 9)]
    exact take_ten_of_take_nine (es.reverse ++ [e]) h (by simp)

/-- C5: recording prepends (newest first); inserting eleven entries
sequentially yields exactly the ten most recently inserted entries in
newest-first order, the first-inserted entry being absent (when the entries
are pairwise distinct). -/
theorem record_eleven_inserts (es : List EmotionPrediction)
    (hlen : es.length = 11) :
    insertAll es = (es.drop 1).reverse ∧
    (insertAll es).length = 10 ∧
    (es.Nodup → ∀ e, es.head? = some e → e ∉ insertAll es) := by
  obtain ⟨a, t, rfl⟩ : ∃ a t, es = a :: t := by
    cases es with
    | nil => simp at hlen
    | cons a t => exact ⟨a, t, rfl⟩
  have ht : t.length = 10 := by simpa using hlen
  have h1 : insertAll (a :: t) = t.reverse := by
    rw [insertAll, foldl_record_eq _ [] (by simp), List.append_nil,
      List.reverse_cons, List.take_append_eq_append_take]
    have hrl : t.reverse.length = 10 := by simpa using ht
    rw [List.take_of_length_le (le_of_eq hrl), hrl]
    simp
  refine ⟨by simpa using h1, by rw [h1]; simpa using ht, ?_⟩
  intro hnd e he
  have hea : e = a := by simpa using he.symm
  subst hea
  rw [h1, List.mem_reverse]
  exact (List.nodup_cons.mp hnd).1

/-- Witness for C5 on a concrete batch of eleven distinct entries. -/
theorem record_eleven_inserts_witness :
    insertAll sampleBatch = (sampleBatch.drop 1).reverse ∧
    (insertAll sampleBatch).length = 10 ∧
    ({ emotion := "happy", confidence := 0, timestamp := 0
       audioName := "clip" } : EmotionPrediction) ∉ insertAll sampleBatch :=
  ⟨(record_eleven_inserts sampleBatch (by decide)).1,
   (record_eleven_inserts sampleBatch (by decide)).2.1,
   (record_eleven_inserts sampleBatch (by decide)).2.2 (by decide) _ (by decide)⟩

/-- The emotion vocabulary has no duplicate labels. -/
theorem emotions_nodup : emotions.Nodup := by decide

/-- Membership in `mockResult.all`: an entry is either the primary entry or
one of the six re-weighted non-primary labels. -/
theorem mem_mockResult_all (k : ℕ) (r0 : ℚ) (rs : String → ℚ)
    (x : EmotionEntry) :
    x ∈ (mockResult k r0 rs).all ↔
      x = ⟨primaryEmotion k, primaryConfidence r0⟩ ∨
      ∃ e ∈ emotions, e ≠ primaryEmotion k ∧
        x = ⟨e, rs e * (100 - primaryConfidence r0)⟩ := by
  unfold mockResult otherEmotions
  rw [List.Perm.mem_iff (List.mergeSort_perm _ _), List.mem_cons,
    List.Perm.mem_iff (List.mergeSort_perm _ _)]
  simp only [List.mem_map, List.mem_filter, bne_iff_ne]
  constructor
  · rintro (rfl | ⟨e, ⟨he, hne⟩, rfl⟩)
    · exact Or.inl rfl
    · exact Or.inr ⟨e, he, hne, rfl⟩
  · rintro (rfl | ⟨e, he, hne, rfl⟩)
    · exact Or.inl rfl
    · exact Or.inr ⟨e, ⟨he, hne⟩, rfl⟩

/-- The primary confidence `65 + r0 * 30` lies in `[65, 95)` for
`r0 ∈ [0, 1)`. -/
theorem primaryConfidence_bounds (r0 : ℚ) (h0 : 0 ≤ r0) (h1 : r0 < 1) :
    65 ≤ primaryConfidence r0 ∧ primaryConfidence r0 < 95 := by
  unfold primaryConfidence
  constructor <;> nlinarith

/-- A non-primary confidence `q * (100 - primaryConfidence r0)` is
nonnegative and strictly below the remaining mass `100 - primaryConfidence`,
itself at most 35. -/
theorem otherConfidence_bounds (r0 q : ℚ) (h0 : 0 ≤ r0) (h1 : r0 < 1)
    (hq0 : 0 ≤ q) (hq1 : q < 1) :
    0 ≤ q * (100 - primaryConfidence r0) ∧
    q * (100 - primaryConfidence r0) < 100 - primaryConfidence r0 ∧
    100 - primaryConfidence r0 ≤ 35 := by
  unfold primaryConfidence
  refine ⟨by nlinarith, by nlinarith, by nlinarith⟩

/-- For an in-range index the primary label is drawn from the vocabulary. -/
theorem primaryEmotion_mem (k : ℕ) (hk : k < 7) :
    primaryEmotion k ∈ emotions := by
  interval_cases k <;> decide

/-- Putting the primary label back in front of the filtered-out remainder
permutes the vocabulary. -/
theorem primary_cons_filter_perm (k : ℕ) (hk : k < 7) :
    (primaryEmotion k ::
      emotions.filter (fun e => e != primaryEmotion k)).Perm emotions := by
  interval_cases k <;> decide

/-- C3: every distribution built by `handleAnalyze` carries each of the
seven vocabulary labels exactly once (its label list is a permutation of the
vocabulary, hence has length seven), and every confidence lies in
`[0, 100]`. -/
theorem mockResult_distribution_invariant (k : ℕ) (hk : k < 7) (r0 : ℚ)
    (h0 : 0 ≤ r0) (h1 : r0 < 1) (rs : String → ℚ)
    (hrs : ∀ e, 0 ≤ rs e ∧ rs e < 1) :
    ((mockResult k r0 rs).all.map EmotionEntry.emotion).Perm emotions ∧
    (mockResult k r0 rs).all.length = 7 ∧
    ∀ x ∈ (mockResult k r0 rs).all, 0 ≤ x.confidence ∧ x.confidence ≤ 100 := by
  have hmapped : (((emotions.filter (fun e => e != primaryEmotion k)).map
        (fun e => (⟨e, rs e * (100 - primaryConfidence r0)⟩ : EmotionEntry))).map
        EmotionEntry.emotion)
      = emotions.filter (fun e => e != primaryEmotion k) := by
    rw [List.map_map]
    exact List.map_id' _
  have hperm : ((mockResult k r0 rs).all.map EmotionEntry.emotion).Perm emotions := by
    have h1' := (List.mergeSort_perm
      ((⟨primaryEmotion k, primaryConfidence r0⟩ : EmotionEntry)
        :: otherEmotions k r0 rs) descBy).map EmotionEntry.emotion
    have h2' := (List.mergeSort_perm
      ((emotions.filter (fun e => e != primaryEmotion k)).map
        (fun e => (⟨e, rs e * (100 - primaryConfidence r0)⟩ : EmotionEntry)))
      descBy).map EmotionEntry.emotion
    rw [hmapped] at h2'
    refine (h1'.trans ?_).trans (primary_cons_filter_perm k hk)
    exact List.Perm.cons _ h2'
  refine ⟨hperm, ?_, ?_⟩
  · have := hperm.length_eq
    simpa using this
  · intro x hx
    rcases (mem_mockResult_all k r0 rs x).mp hx with rfl | ⟨e, _, _, rfl⟩
    · have hb := primaryConfidence_bounds r0 h0 h1
      constructor <;> simp <;> linarith [hb.1, hb.2]
    · have hb := otherConfidence_bounds r0 (rs e) h0 h1 (hrs e).1 (hrs e).2
      constructor <;> simp <;> linarith [hb.1, hb.2.1, hb.2.2]

/-- Witness for C3 at concrete random draws. -/
theorem mockResult_distribution_invariant_witness :
    ((mockResult 0 (1/2) (fun _ => 1/3)).all.map EmotionEntry.emotion).Perm
      emotions ∧
    (mockResult 0 (1/2) (fun _ => 1/3)).all.length = 7 ∧
    ∀ x ∈ (mockResult 0 (1/2) (fun _ => 1/3)).all,
      0 ≤ x.confidence ∧ x.confidence ≤ 100 :=
  mockResult_distribution_invariant 0 (by norm_num) (1/2) (by norm_num)
    (by norm_num) (fun _ => 1/3) (fun e => by norm_num)

/-- Every non-primary entry's confidence is strictly below the primary
confidence. -/
theorem other_lt_primary (k : ℕ) (r0 : ℚ) (h0 : 0 ≤ r0) (h1 : r0 < 1)
    (rs : String → ℚ) (hrs : ∀ e, 0 ≤ rs e ∧ rs e < 1) (x : EmotionEntry)
    (hx : x ∈ (mockResult k r0 rs).all)
    (hne : x ≠ (⟨primaryEmotion k, primaryConfidence r0⟩ : EmotionEntry)) :
    x.confidence < 100 - primaryConfidence r0 ∧
    x.confidence < primaryConfidence r0 := by
  rcases (mem_mockResult_all k r0 rs x).mp hx with rfl | ⟨e, _, _, rfl⟩
  · exact absurd rfl hne
  · have hb := otherConfidence_bounds r0 (rs e) h0 h1 (hrs e).1 (hrs e).2
    have hp := primaryConfidence_bounds r0 h0 h1
    exact ⟨by simpa using hb.2.1, by simp; linarith [hb.2.1, hb.2.2, hp.1]⟩

/-- C4: the primary entry of every distribution built by `handleAnalyze` is
an element of the entry list and is its unique confidence maximum — so it is
the maximum-confidence entry under any tie-breaking rule, in particular
vocabulary declaration order. -/
theorem mockResult_primary_max (k : ℕ) (hk : k < 7) (r0 : ℚ)
    (h0 : 0 ≤ r0) (h1 : r0 < 1) (rs : String → ℚ)
    (hrs : ∀ e, 0 ≤ rs e ∧ rs e < 1) :
    (mockResult k r0 rs).primary ∈ (mockResult k r0 rs).all ∧
    (∀ x ∈ (mockResult k r0 rs).all,
      x.confidence ≤ (mockResult k r0 rs).primary.confidence) ∧
    (∀ x ∈ (mockResult k r0 rs).all,
      x.confidence = (mockResult k r0 rs).primary.confidence →
        x = (mockResult k r0 rs).primary) := by
  have hpdef : (mockResult k r0 rs).primary
      = (⟨primaryEmotion k, primaryConfidence r0⟩ : EmotionEntry) := rfl
  refine ⟨?_, ?_, ?_⟩
  · rw [hpdef, mem_mockResult_all]
    exact Or.inl rfl
  · intro x hx
    rw [hpdef]
    by_cases hne : x = (⟨primaryEmotion k, primaryConfidence r0⟩ : EmotionEntry)
    · rw [hne]
    · exact le_of_lt (other_lt_primary k r0 h0 h1 rs hrs x hx hne).2
  · intro x hx hconf
    rw [hpdef] at hconf ⊢
    by_contra hne
    have := (other_lt_primary k r0 h0 h1 rs hrs x hx hne).2
    rw [hconf] at this
    exact absurd this (lt_irrefl _)

/-- Witness for C4 at concrete random draws. -/
theorem mockResult_primary_max_witness :
    (mockResult 3 (1/2) (fun _ => 1/3)).primary
        ∈ (mockResult 3 (1/2) (fun _ => 1/3)).all ∧
    (∀ x ∈ (mockResult 3 (1/2) (fun _ => 1/3)).all,
      x.confidence ≤ (mockResult 3 (1/2) (fun _ => 1/3)).primary.confidence) ∧
    (∀ x ∈ (mockResult 3 (1/2) (fun _ => 1/3)).all,
      x.confidence = (mockResult 3 (1/2) (fun _ => 1/3)).primary.confidence →
        x = (mockResult 3 (1/2) (fun _ => 1/3)).primary) :=
  mockResult_primary_max 3 (by norm_num) (1/2) (by norm_num) (by norm_num)
    (fun _ => 1/3) (fun e => by norm_num)

/-- The comparator `descBy` is transitive. -/
theorem descBy_trans (a b c : EmotionEntry) (hab : descBy a b = true)
    (hbc : descBy b c = true) : descBy a c = true := by
  simp only [descBy, decide_eq_true_eq] at *
  linarith

/-- The comparator `descBy` is total. -/
theorem descBy_total (a b : EmotionEntry) :
    (descBy a b || descBy b a) = true := by
  simp only [descBy, Bool.or_eq_true, decide_eq_true_eq]
  exact le_total b.confidence a.confidence

/-- C10: the entry list of every distribution built by `handleAnalyze` is
sorted by non-increasing confidence, its head is the primary entry, the
primary confidence lies in `[65, 95]`, and every non-primary confidence is
strictly below `100 - primaryConfidence`. -/
theorem mockResult_all_sorted (k : ℕ) (hk : k < 7) (r0 : ℚ)
    (h0 : 0 ≤ r0) (h1 : r0 < 1) (rs : String → ℚ)
    (hrs : ∀ e, 0 ≤ rs e ∧ rs e < 1) :
    (mockResult k r0 rs).all.Pairwise
      (fun a b => b.confidence ≤ a.confidence) ∧
    (mockResult k r0 rs).all.head? = some (mockResult k r0 rs).primary ∧
    (65 ≤ (mockResult k r0 rs).primary.confidence ∧
      (mockResult k r0 rs).primary.confidence ≤ 95) ∧
    ∀ x ∈ (mockResult k r0 rs).all, x ≠ (mockResult k r0 rs).primary →
      x.confidence < 100 - (mockResult k r0 rs).primary.confidence := by
  have hpdef : (mockResult k r0 rs).primary
      = (⟨primaryEmotion k, primaryConfidence r0⟩ : EmotionEntry) := rfl
  have hsorted : (mockResult k r0 rs).all.Pairwise
      (fun a b => b.confidence ≤ a.confidence) := by
    have hs := List.sorted_mergeSort descBy_trans descBy_total
      ((⟨primaryEmotion k, primaryConfidence r0⟩ : EmotionEntry)
        :: otherEmotions k r0 rs)
    exact hs.imp (fun h => by simpa [descBy] using h)
  have hmemp : (mockResult k r0 rs).primary ∈ (mockResult k r0 rs).all := by
    rw [hpdef, mem_mockResult_all]
    exact Or.inl rfl
  refine ⟨hsorted, ?_, ?_, ?_⟩
  · obtain ⟨h0e, t, heq⟩ :=
      List.exists_cons_of_ne_nil (List.ne_nil_of_mem hmemp)
    rw [heq]
    have hle : ∀ x ∈ t, x.confidence ≤ h0e.confidence := by
      have := hsorted
      rw [heq] at this
      exact fun x hx => (List.pairwise_cons.mp this).1 x hx
    have hh0 : h0e ∈ (mockResult k r0 rs).all := by
      rw [heq]
      exact List.mem_cons_self _ _
    rcases (mem_mockResult_all k r0 rs h0e).mp hh0 with h0p | ⟨e, _, hne, h0o⟩
    · rw [hpdef, h0p]
      rfl
    · exfalso
      have hlt : h0e.confidence < primaryConfidence r0 := by
        refine (other_lt_primary k r0 h0 h1 rs hrs h0e hh0 ?_).2
        rw [h0o]
        intro hcontra
        exact hne (congrArg EmotionEntry.emotion hcontra)
      rw [heq] at hmemp
      rcases List.mem_cons.mp hmemp with hpe | hpt
      · rw [hpdef] at hpe
        rw [← hpe] at hlt
        simp at hlt
      · have := hle _ hpt
        rw [hpdef] at this
        simp at this
        linarith
  · have hb := primaryConfidence_bounds r0 h0 h1
    rw [hpdef]
    exact ⟨by simpa using hb.1, by simp; linarith [hb.2]⟩
  · intro x hx hne
    rw [hpdef] at hne ⊢
    simp only
    exact (other_lt_primary k r0 h0 h1 rs hrs x hx hne).1

/-- Witness for C10 at concrete random draws. -/
theorem mockResult_all_sorted_witness :
    (mockResult 5 (1/2) (fun _ => 1/3)).all.Pairwise
      (fun a b => b.confidence ≤ a.confidence) ∧
    (mockResult 5 (1/2) (fun _ => 1/3)).all.head?
      = some (mockResult 5 (1/2) (fun _ => 1/3)).primary ∧
    (65 ≤ (mockResult 5 (1/2) (fun _ => 1/3)).primary.confidence ∧
      (mockResult 5 (1/2) (fun _ => 1/3)).primary.confidence ≤ 95) ∧
    ∀ x ∈ (mockResult 5 (1/2) (fun _ => 1/3)).all,
      x ≠ (mockResult 5 (1/2) (fun _ => 1/3)).primary →
        x.confidence
          < 100 - (mockResult 5 (1/2) (fun _ => 1/3)).primary.confidence :=
  mockResult_all_sorted 5 (by norm_num) (1/2) (by norm_num) (by norm_num)
    (fun _ => 1/3) (fun e => by norm_num)

/-- C1: for a payload that passes the format and size checks and decodes to
duration `d`, `validateFile` rejects with `TooLong` when `d > 300`, with
`TooShort` when `d < 0.5`, and otherwise accepts with the artifact's
`durationSeconds` equal to `d`. -/
theorem validateFile_duration_check (f : AudioFile) (d : ℚ)
    (hfmt : (ACCEPTED_FORMATS.contains f.mediaType || extensionMatches f.name) = true)
    (hsize : f.size ≤ MAX_FILE_SIZE) :
    (d > MAX_DURATION → validateFile f (.ok d) = .Rejected .TooLong) ∧
    (d < MIN_DURATION → validateFile f (.ok d) = .Rejected .TooShort) ∧
    (MIN_DURATION ≤ d → d ≤ MAX_DURATION →
      validateFile f (.ok d) = .Accepted ⟨f.name, f.mediaType, f.size, d⟩) := by
  have hns : ¬ f.size > MAX_FILE_SIZE := by omega
  refine ⟨fun h => ?_, fun h => ?_, fun h1 h2 => ?_⟩
  · unfold validateFile
    rw [hfmt]
    simp [hns, h]
  · have hlt : ¬ d > MAX_DURATION := by
      rw [MIN_DURATION_eq_half] at h
      unfold MAX_DURATION
      norm_num
      linarith
    unfold validateFile
    rw [hfmt]
    simp [hns, hlt, h]
  · have hng : ¬ d > MAX_DURATION := not_lt.mpr h2
    have hng2 : ¬ d < MIN_DURATION := not_lt.mpr h1
    unfold validateFile
    rw [hfmt]
    simp [hns, hng, hng2]

/-- Witness for C1 at a concrete accepted WAV file and the three duration
regimes. -/
theorem validateFile_duration_check_witness :
    (validateFile ⟨"a.wav", "audio/wav", 100⟩ (.ok 400)
        = .Rejected .TooLong) ∧
    (validateFile ⟨"a.wav", "audio/wav", 100⟩ (.ok (1/4))
        = .Rejected .TooShort) ∧
    (validateFile ⟨"a.wav", "audio/wav", 100⟩ (.ok 3)
        = .Accepted ⟨"a.wav", "audio/wav", 100, 3⟩) :=
  ⟨(validateFile_duration_check ⟨"a.wav", "audio/wav", 100⟩ 400
      (by decide) (by decide)).1 (by norm_num [MAX_DURATION]),
   (validateFile_duration_check ⟨"a.wav", "audio/wav", 100⟩ (1/4)
      (by decide) (by decide)).2.1
      (by rw [MIN_DURATION_eq_half]; norm_num),
   (validateFile_duration_check ⟨"a.wav", "audio/wav", 100⟩ 3
      (by decide) (by decide)).2.2
      (by rw [MIN_DURATION_eq_half]; norm_num)
      (by norm_num [MAX_DURATION])⟩

/-- C2 (counterexample): a 60 MiB payload whose media type and extension are
both outside the accepted set is rejected with `UnsupportedFormat`, not
`FileTooLarge` — the format check runs first and short-circuits. -/
theorem validateFile_oversized_counterexample :
    60 * 1024 * 1024 > MAX_FILE_SIZE ∧
    validateFile ⟨"notes.txt", "text/plain", 60 * 1024 * 1024⟩ .failed
      = .Rejected .UnsupportedFormat ∧
    validateFile ⟨"notes.txt", "text/plain", 60 * 1024 * 1024⟩ .failed
      ≠ .Rejected .FileTooLarge := by
  decide

/-- C2 (amended): for every payload with `sizeBytes > 50 MiB` that passes
the format check (accepted media type or matching extension), `validateFile`
returns `Rejected FileTooLarge`, whatever the decode outcome. -/
theorem validateFile_oversized_rejected (f : AudioFile) (decode : DecodeResult)
    (hfmt : (ACCEPTED_FORMATS.contains f.mediaType || extensionMatches f.name) = true)
    (hsize : f.size > MAX_FILE_SIZE) :
    validateFile f decode = .Rejected .FileTooLarge := by
  unfold validateFile
  rw [hfmt]
  simp [hsize]

/-- Witness for the amended C2 at a concrete 60 MiB WAV file. -/
theorem validateFile_oversized_rejected_witness :
    validateFile ⟨"big.wav", "audio/wav", 60 * 1024 * 1024⟩ .failed
      = .Rejected .FileTooLarge :=
  validateFile_oversized_rejected ⟨"big.wav", "audio/wav", 60 * 1024 * 1024⟩
    .failed (by decide) (by decide)

/-- C8: on every rejection of `validateFile`, `handleFile` notifies the
caller with no artifact and only the specific validation error, and the
orchestrator state is left completely unchanged by the selection — in
particular `audioFile` is not replaced, so classification can never be
invoked for the rejected payload. -/
theorem handleFile_rejected_no_artifact (f : AudioFile) (d : DecodeResult)
    (e : ValidationError) (h : validateFile f d = .Rejected e) :
    handleFile f d = (none, some e) ∧
    ∀ (url : ℕ) (s : AppState), processFileSelection f d url s = s := by
  constructor
  · simp [handleFile, h]
  · intro url s
    simp [processFileSelection, h]

/-- Witness for C8: an unsupported-format selection leaves the freshly
mounted orchestrator untouched and produces no artifact. -/
theorem handleFile_rejected_no_artifact_witness :
    handleFile ⟨"notes.txt", "text/plain", 10⟩ .failed
      = (none, some .UnsupportedFormat) ∧
    processFileSelection ⟨"notes.txt", "text/plain", 10⟩ .failed 5 initApp
      = initApp :=
  ⟨(handleFile_rejected_no_artifact ⟨"notes.txt", "text/plain", 10⟩ .failed
      .UnsupportedFormat (by decide)).1,
   (handleFile_rejected_no_artifact ⟨"notes.txt", "text/plain", 10⟩ .failed
      .UnsupportedFormat (by decide)).2 5 initApp⟩

set_option maxRecDepth 4000 in
/-- C6 (code bug): the interval callback's `stopRecording` closure captured
`isRecording = false` from the render that started the recording, so when
`recordingTime` reaches the 300-second maximum the auto-stop call is a
no-op: after 301 ticks the media recorder is still recording, the timer is
still active and no artifact has been emitted — whereas an explicit user
stop from that very state finalizes and emits exactly one artifact. -/
theorem autoStop_stale_closure :
    (recTicks 301 (startRecording true false initRec)).recorderRecording = true ∧
    (recTicks 301 (startRecording true false initRec)).timerActive = true ∧
    (recTicks 301 (startRecording true false initRec)).artifactsEmitted = 0 ∧
    (recTicks 301 (startRecording true false initRec)).recordingTime = 300 ∧
    (userStop (recTicks 301 (startRecording true false initRec))).artifactsEmitted = 1 ∧
    (userStop (recTicks 301 (startRecording true false initRec))).recorderRecording = false := by
  decide

/-- C7 (counterexample): a second `startRecording` without an intervening
stop is neither a no-op nor an error: it silently acquires a second
exclusive capture stream while the first is still open. -/
theorem startRecording_twice_counterexample :
    startRecording true false (startRecording true false initRec)
      ≠ startRecording true false initRec ∧
    (startRecording true false (startRecording true false initRec)).errorSet
      = false ∧
    (startRecording true false (startRecording true false initRec)).openStreams
      = 2 ∧
    (startRecording true false (startRecording true false initRec)).acquiredStreams
      = 2 := by
  decide

/-- C7 (amended): `startRecording` has no re-entry guard — called while a
recording is in progress it silently acquires one more exclusive stream,
leaving at least two open, and signals no error. -/
theorem startRecording_reentrant_acquires (s : RecState) (v : Bool)
    (hrec : s.recorderRecording = true) (hopen : 1 ≤ s.openStreams) :
    (startRecording true v s).acquiredStreams = s.acquiredStreams + 1 ∧
    2 ≤ (startRecording true v s).openStreams ∧
    (startRecording true v s).errorSet = false := by
  refine ⟨by simp [startRecording], ?_, by simp [startRecording]⟩
  simp only [startRecording, if_pos]
  omega

/-- Witness for the amended C7: the second of two consecutive starts. -/
theorem startRecording_reentrant_acquires_witness :
    (startRecording true false (startRecording true false initRec)).acquiredStreams
      = (startRecording true false initRec).acquiredStreams + 1 ∧
    2 ≤ (startRecording true false (startRecording true false initRec)).openStreams ∧
    (startRecording true false (startRecording true false initRec)).errorSet
      = false :=
  startRecording_reentrant_acquires (startRecording true false initRec) false
    (by decide) (by decide)

/-- C9 (counterexample): select artifact A, start analyzing, select artifact
B while the analysis is outstanding, then let the analysis resolve.  The
post-selection state had `result = none` for B, yet the stale resolution
overwrites `result` and prepends a history entry named after A — it is not
discarded. -/
theorem staleAnalyze_overwrites_counterexample :
    let fA : AudioFile := ⟨"a.wav", "audio/wav", 100⟩
    let fB : AudioFile := ⟨"b.wav", "audio/wav", 200⟩
    let s1 := handleAnalyzeStart (handleAudioSelected fA 1 initApp)
    let s2 := processFileSelection fB (.ok 3) 2 s1
    let s3 := handleAnalyzeResolve 0 (1/2) (fun _ => 1/3) 42 s2
    s2.audioFile = some fB ∧ s2.result = none ∧
    s2.pendingAnalysis = some fA ∧
    s3.result ≠ none ∧
    s3.history.head?.map EmotionPrediction.audioName = some "a.wav" ∧
    s3.audioFile = some fB := by
  have hp : (processFileSelection ⟨"b.wav", "audio/wav", 200⟩ (.ok 3) 2
      (handleAnalyzeStart
        (handleAudioSelected ⟨"a.wav", "audio/wav", 100⟩ 1 initApp))).pendingAnalysis
      = some ⟨"a.wav", "audio/wav", 100⟩ := by decide
  refine ⟨by decide, by decide, by decide, ?_, ?_, by decide⟩
  · simp [handleAnalyzeResolve, hp]
  · simp [handleAnalyzeResolve, hp, record]

/-- C9 (amended): a resolving analysis whose captured file is `fOld` always
writes its freshly built `mockResult` into `result` and prepends a history
entry bearing `fOld`'s name, with no check against the currently selected
artifact: a stale outstanding call overwrites the newer selection's state. -/
theorem analyzeResolve_stale_overwrite (s : AppState) (fOld : AudioFile)
    (h : s.pendingAnalysis = some fOld) (k : ℕ) (r0 : ℚ) (rs : String → ℚ)
    (t : ℕ) :
    (handleAnalyzeResolve k r0 rs t s).result = some (mockResult k r0 rs) ∧
    (handleAnalyzeResolve k r0 rs t s).history
      = record ⟨(mockResult k r0 rs).primary.emotion,
          (mockResult k r0 rs).primary.confidence, t, fOld.name⟩ s.history := by
  rw [handleAnalyzeResolve, h]
  exact ⟨rfl, rfl⟩

/-- Witness for the amended C9 in the concrete supersede scenario. -/
theorem analyzeResolve_stale_overwrite_witness :
    (handleAnalyzeResolve 0 (1/2) (fun _ => 1/3) 42
        (processFileSelection ⟨"b.wav", "audio/wav", 200⟩ (.ok 3) 2
          (handleAnalyzeStart
            (handleAudioSelected ⟨"a.wav", "audio/wav", 100⟩ 1 initApp)))).result
      = some (mockResult 0 (1/2) (fun _ => 1/3)) ∧
    (handleAnalyzeResolve 0 (1/2) (fun _ => 1/3) 42
        (processFileSelection ⟨"b.wav", "audio/wav", 200⟩ (.ok 3) 2
          (handleAnalyzeStart
            (handleAudioSelected ⟨"a.wav", "audio/wav", 100⟩ 1 initApp)))).history
      = record ⟨(mockResult 0 (1/2) (fun _ => 1/3)).primary.emotion,
          (mockResult 0 (1/2) (fun _ => 1/3)).primary.confidence, 42, "a.wav"⟩
          (processFileSelection ⟨"b.wav", "audio/wav", 200⟩ (.ok 3) 2
            (handleAnalyzeStart
              (handleAudioSelected ⟨"a.wav", "audio/wav", 100⟩ 1 initApp))).history :=
  analyzeResolve_stale_overwrite _ ⟨"a.wav", "audio/wav", 100⟩ (by decide)
    0 (1/2) (fun _ => 1/3) 42

end SER
